import Mathlib

/-!
Shallow embedding of the embedded key-value store in
`src/app/storage/singleton_class.py` (classes `PurgeMeta`, `Response`, `Item`,
`GetItem`, `SetItem`, `Table`, `Storage`, `Singleton`).

Modelling conventions, fixed once here:

* Python `datetime` values are modelled as natural numbers (seconds); each call
  to `datetime.now()` reads the next value of an explicit clock stream carried
  in the state (`St.clock`, `St.tick`), because the source calls `now()`
  several times inside one operation and nothing forces those readings to be
  equal.  `timedelta(minutes=15) = 900`, `timedelta(minutes=1) = 60`,
  `timedelta(days=30) = 2592000`.
* `uuid4()` is modelled as a fresh-counter draw (`St.nextId`); the only
  property of uuid4 the program relies on is freshness of identifiers.
* `datetime.isoformat()` and `str(UUID)` are injective textual codecs that
  pydantic inverts exactly on their own outputs; both are modelled by the
  injective codec `natStr` / `parseNatStr` below.
* Python dicts are modelled as insertion-ordered association lists with
  update-in-place semantics (`alSet`), matching dict key-uniqueness on every
  list the operations construct.
* The `cachetools.TTLCache` used by `@cached` on `get`/`get_all` is modelled
  as a pair of association-list maps (the two call shapes have different
  hashkey arities, so they can never collide inside the one shared cache).
  TTL eviction and the maxsize-100 LRU bound only *remove* cached entries;
  every theorem below either uses an empty cache (a miss in any case) or a
  just-inserted entry (a hit within the 60 s TTL in any case), so eviction
  timing is immaterial and is elided.
* `value: Any` payloads are modelled by the inductive `Val`, which includes
  JSON-pure data, Python sets, datetimes, and (because `Singleton.update`
  stores one) a `Response`-object wrapper (`Val.vresp`).  Equality `==` on
  values is modelled structurally; the claims below only compare scalars.
* The pydantic schemas declare the timestamp/id fields `Optional`, but every
  construction site in the source supplies all of them, so `Entry` carries
  them as required fields; likewise `Table.items` is `Optional` in the schema
  but every constructor in the source supplies a dict, so it is a plain list
  here.
* Exceptions (`ValueError`, `KeyError`, `TypeError`, `AttributeError`,
  `NoneResultException`) are modelled with `Except PyErr`; a raising
  operation still returns the mutated state, since a raised Python exception
  does not roll back mutations already performed on the singleton.
-/

/-- Association-list lookup, modelling `dict.get` / `in`. -/
def alGet {α : Type} : List (String × α) → String → Option α
  | [], _ => none
  | (k, v) :: rest, key => if k = key then some v else alGet rest key

/-- Association-list store, modelling `d[k] = v` on an insertion-ordered
Python dict: replaces in place if the key is present, else appends. -/
def alSet {α : Type} : List (String × α) → String → α → List (String × α)
  | [], key, v => [(key, v)]
  | (k, w) :: rest, key, v =>
      if k = key then (k, v) :: rest else (k, w) :: alSet rest key v

/-- Association-list removal, modelling `del d[k]` (key assumed unique). -/
def alDel {α : Type} : List (String × α) → String → List (String × α)
  | [], _ => []
  | (k, w) :: rest, key => if k = key then rest else (k, w) :: alDel rest key

/-- Digit characters of a natural number, least significant first (fuelled
so that it reduces definitionally; the fuel `natChars` passes is always
sufficient). -/
def natCharsAux : Nat → Nat → List Char
  | _, 0 => []
  | 0, _ + 1 => []
  | f + 1, n + 1 => Nat.digitChar ((n + 1) % 10) :: natCharsAux f ((n + 1) / 10)

/-- Digit characters of a natural number, least significant first; together
with `parseNatStr` this is the model of the injective textual codecs
`datetime.isoformat` and `str(UUID)` used by `date_encoder`. -/
def natChars (n : Nat) : List Char := natCharsAux n n

/-- Value of one digit character; inverse of `Nat.digitChar` below 10. -/
def digitVal (c : Char) : Nat :=
  if c = '1' then 1 else if c = '2' then 2 else if c = '3' then 3
  else if c = '4' then 4 else if c = '5' then 5 else if c = '6' then 6
  else if c = '7' then 7 else if c = '8' then 8 else if c = '9' then 9
  else 0

/-- Digit-list parse, inverse of `natChars`. -/
def charsNat : List Char → Nat
  | [] => 0
  | c :: cs => digitVal c + 10 * charsNat cs

/-- The textual codec used for timestamps and identifiers in the backing
file (models `datetime.isoformat()` / `str(uuid)`). -/
def natStr (n : Nat) : String := String.mk (natChars n)

/-- Exact inverse of `natStr` (models pydantic parsing the ISO-8601 string /
canonical UUID string back). -/
def parseNatStr (s : String) : Nat := charsNat s.data

theorem digitVal_digitChar {d : Nat} (h : d < 10) :
    digitVal (Nat.digitChar d) = d := by
  interval_cases d <;> rfl

theorem charsNat_natCharsAux :
    ∀ f n, n ≤ f → charsNat (natCharsAux f n) = n := by
  intro f
  induction f with
  | zero => intro n hn; interval_cases n; rfl
  | succ f ih =>
      intro n hn
      match n with
      | 0 => rfl
      | m + 1 =>
        rw [natCharsAux, charsNat,
          digitVal_digitChar (Nat.mod_lt _ (by omega)),
          ih ((m + 1) / 10) (by omega)]
        omega

theorem charsNat_natChars (n : Nat) : charsNat (natChars n) = n :=
  charsNat_natCharsAux n n (Nat.le_refl n)

theorem parseNatStr_natStr (n : Nat) : parseNatStr (natStr n) = n :=
  charsNat_natChars n

/-- JSON document, the shape `orjson` writes to and reads from the backing
file `storage.json`. -/
inductive J where
  | jnull
  | jbool (b : Bool)
  | jnum (n : Int)
  | jstr (s : String)
  | jarr (xs : List J)
  | jobj (fs : List (String × J))

/-- A stored `value: Any` payload.  `vstr`/`vint`/`vbool`/`vnull`/`vlist`/
`vdict` are the JSON-pure Python values; `vset` is a Python `set` (observed
usage: the ban-token sets in `app/api/auth.py`); `vdatetime` a `datetime`
inside a payload; `vresp` a pydantic `Response` object stored as a payload,
which is what `Singleton.update` places in the `value` field of the entry it
rewrites (fields in declaration order of `Response`: key, value, expired,
created, updated, id). -/
inductive Val where
  | vnull
  | vbool (b : Bool)
  | vint (n : Int)
  | vstr (s : String)
  | vlist (xs : List Val)
  | vdict (fs : List (String × Val))
  | vset (xs : List Val)
  | vdatetime (t : Nat)
  | vresp (key : String) (value : Val) (expired created updated : Option Nat)
      (id : Option Nat)

mutual

/-- Structural equality on payloads.  This models Python `==` on the values
the claims compare (scalars and flat containers); Python additionally treats
reordered dicts/sets as equal, a case no operation traced here exercises. -/
def valBeq : Val → Val → Bool
  | .vnull, .vnull => true
  | .vbool a, .vbool b => a == b
  | .vint a, .vint b => a == b
  | .vstr a, .vstr b => a == b
  | .vlist xs, .vlist ys => valBeqList xs ys
  | .vdict fs, .vdict gs => valBeqFields fs gs
  | .vset xs, .vset ys => valBeqList xs ys
  | .vdatetime a, .vdatetime b => a == b
  | .vresp k v e c u i, .vresp k2 v2 e2 c2 u2 i2 =>
      k == k2 && valBeq v v2 && e == e2 && c == c2 && u == u2 && i == i2
  | _, _ => false
termination_by structural a => a

/-- Pointwise `valBeq` on lists. -/
def valBeqList : List Val → List Val → Bool
  | [], [] => true
  | x :: xs, y :: ys => valBeq x y && valBeqList xs ys
  | _, _ => false
termination_by structural a => a

/-- Pointwise `valBeq` on field lists. -/
def valBeqFields : List (String × Val) → List (String × Val) → Bool
  | [], [] => true
  | (k, x) :: xs, (l, y) :: ys => k == l && valBeq x y && valBeqFields xs ys
  | _, _ => false
termination_by structural a => a

end

mutual

theorem valBeq_refl : ∀ a, valBeq a a = true
  | .vnull => rfl
  | .vbool a => by simp [valBeq]
  | .vint a => by simp [valBeq]
  | .vstr a => by simp [valBeq]
  | .vlist xs => by simp [valBeq, valBeqList_refl xs]
  | .vdict fs => by simp [valBeq, valBeqFields_refl fs]
  | .vset xs => by simp [valBeq, valBeqList_refl xs]
  | .vdatetime a => by simp [valBeq]
  | .vresp k v e c u i => by simp [valBeq, valBeq_refl v]

theorem valBeqList_refl : ∀ xs, valBeqList xs xs = true
  | [] => rfl
  | x :: xs => by simp [valBeqList, valBeq_refl x, valBeqList_refl xs]

theorem valBeqFields_refl : ∀ fs, valBeqFields fs fs = true
  | [] => rfl
  | (k, x) :: fs => by simp [valBeqFields, valBeq_refl x, valBeqFields_refl fs]

end

mutual

theorem valBeq_eq : ∀ a b, valBeq a b = true → a = b
  | .vnull, .vnull, _ => rfl
  | .vbool a, .vbool b, h => by simpa [valBeq] using h
  | .vint a, .vint b, h => by simpa [valBeq] using h
  | .vstr a, .vstr b, h => by simpa [valBeq] using h
  | .vlist xs, .vlist ys, h => by
      rw [valBeqList_eq xs ys (by simpa [valBeq] using h)]
  | .vdict fs, .vdict gs, h => by
      rw [valBeqFields_eq fs gs (by simpa [valBeq] using h)]
  | .vset xs, .vset ys, h => by
      rw [valBeqList_eq xs ys (by simpa [valBeq] using h)]
  | .vdatetime a, .vdatetime b, h => by simpa [valBeq] using h
  | .vresp k v e c u i, .vresp k2 v2 e2 c2 u2 i2, h => by
      simp only [valBeq, Bool.and_eq_true, beq_iff_eq] at h
      obtain ⟨⟨⟨⟨⟨h1, h2⟩, h3⟩, h4⟩, h5⟩, h6⟩ := h
      rw [h1, valBeq_eq v v2 h2, h3, h4, h5, h6]

theorem valBeqList_eq : ∀ xs ys, valBeqList xs ys = true → xs = ys
  | [], [], _ => rfl
  | x :: xs, y :: ys, h => by
      simp only [valBeqList, Bool.and_eq_true] at h
      rw [valBeq_eq x y h.1, valBeqList_eq xs ys h.2]

theorem valBeqFields_eq :
    ∀ fs gs, valBeqFields fs gs = true → fs = gs
  | [], [], _ => rfl
  | (k, x) :: fs, (l, y) :: gs, h => by
      simp only [valBeqFields, Bool.and_eq_true, beq_iff_eq] at h
      rw [h.1.1, valBeq_eq x y h.1.2, valBeqFields_eq fs gs h.2]

end

instance : DecidableEq Val := fun a b =>
  if h : valBeq a b = true then isTrue (valBeq_eq a b h)
  else isFalse fun he => h (he ▸ valBeq_refl a)

/-- Python truthiness of a payload, as tested by `if data:` in
`Singleton.get_by_parameter`. -/
def truthy : Val → Bool
  | .vnull => false
  | .vbool b => b
  | .vint n => n != 0
  | .vstr s => s != ""
  | .vlist xs => !xs.isEmpty
  | .vdict fs => !fs.isEmpty
  | .vset xs => !xs.isEmpty
  | .vdatetime _ => true
  | .vresp .. => true

/-- `type(data) == type(equals)`: the two payloads have the same Python
type.  Constructor discrimination matches CPython here: `bool` is a distinct
type from `int`, `datetime` from `str`, and so on. -/
def sameType : Val → Val → Bool
  | .vnull, .vnull => true
  | .vbool _, .vbool _ => true
  | .vint _, .vint _ => true
  | .vstr _, .vstr _ => true
  | .vlist _, .vlist _ => true
  | .vdict _, .vdict _ => true
  | .vset _, .vset _ => true
  | .vdatetime _, .vdatetime _ => true
  | .vresp .., .vresp .. => true
  | _, _ => false

/-- A stored record (`Item | SetItem` in `Table.items`, and equally the
`Response` view that `get`/`_get_internal_all` rebuild, since those copy
exactly these six fields). -/
structure Entry where
  key : String
  value : Val
  expired : Nat
  created : Nat
  updated : Nat
  id : Nat
deriving DecidableEq

/-- The `GetItem` wrapper returned by `get`, `get_all`,
`_get_internal_all` and `get_by_parameter`. -/
structure GetItem where
  key : String
  value : Entry
deriving DecidableEq

/-- The `Table` model: a name and an insertion-ordered mapping
key -> Entry. -/
structure Table where
  name : String
  items : List (String × Entry)
deriving DecidableEq

/-- The `Storage` model (the Store Image): mapping table name -> Table. -/
structure Storage where
  tables : List (String × Table)
deriving DecidableEq

/-- The backing file `storage.json`: missing/empty, unparsable, or holding a
JSON document. -/
inductive FileImage where
  | empty
  | corrupt
  | jdata (j : J)

/-- Python exceptions raised by the store. -/
inductive PyErr where
  | valueError
  | keyError
  | typeError
  | attributeError
  | noneResult
deriving DecidableEq

mutual

/-- `orjson.dumps(..., default=date_encoder)` on one payload: JSON-pure data
passes through, a `datetime` is rendered by `date_encoder` as its ISO string,
and a value orjson cannot serialize and `date_encoder` returns unchanged
(a Python `set`, or the `Response` object `update` stores) makes the dump
raise `TypeError`, modelled as `none`. -/
def encodeVal : Val → Option J
  | .vnull => some .jnull
  | .vbool b => some (.jbool b)
  | .vint n => some (.jnum n)
  | .vstr s => some (.jstr s)
  | .vlist xs => (encodeValList xs).map .jarr
  | .vdict fs => (encodeValFields fs).map .jobj
  | .vset _ => none
  | .vdatetime t => some (.jstr (natStr t))
  | .vresp .. => none
termination_by structural v => v

/-- Elementwise `encodeVal`; the whole dump fails if any element fails. -/
def encodeValList : List Val → Option (List J)
  | [] => some []
  | x :: xs =>
      match encodeVal x, encodeValList xs with
      | some j, some js => some (j :: js)
      | _, _ => none
termination_by structural v => v

/-- Fieldwise `encodeVal`; the whole dump fails if any field fails. -/
def encodeValFields : List (String × Val) → Option (List (String × J))
  | [] => some []
  | (k, x) :: fs =>
      match encodeVal x, encodeValFields fs with
      | some j, some js => some ((k, j) :: js)
      | _, _ => none
termination_by structural v => v

end

mutual

/-- Reading a JSON payload back: pydantic leaves an `Any` field as the plain
parsed JSON data (strings stay strings — an ISO string inside a payload is
not turned back into a `datetime`). -/
def decodeJ : J → Val
  | .jnull => .vnull
  | .jbool b => .vbool b
  | .jnum n => .vint n
  | .jstr s => .vstr s
  | .jarr xs => .vlist (decodeJList xs)
  | .jobj fs => .vdict (decodeJFields fs)
termination_by structural j => j

/-- Elementwise `decodeJ`. -/
def decodeJList : List J → List Val
  | [] => []
  | x :: xs => decodeJ x :: decodeJList xs
termination_by structural j => j

/-- Fieldwise `decodeJ`. -/
def decodeJFields : List (String × J) → List (String × Val)
  | [] => []
  | (k, x) :: fs => (k, decodeJ x) :: decodeJFields fs
termination_by structural j => j

end

mutual

/-- A payload is JSON-pure: built only from null, booleans, integers,
strings, lists and string-keyed mappings. -/
def jsonPure : Val → Bool
  | .vnull => true
  | .vbool _ => true
  | .vint _ => true
  | .vstr _ => true
  | .vlist xs => jsonPureList xs
  | .vdict fs => jsonPureFields fs
  | .vset _ => false
  | .vdatetime _ => false
  | .vresp .. => false
termination_by structural v => v

/-- All elements JSON-pure. -/
def jsonPureList : List Val → Bool
  | [] => true
  | x :: xs => jsonPure x && jsonPureList xs
termination_by structural v => v

/-- All fields JSON-pure. -/
def jsonPureFields : List (String × Val) → Bool
  | [] => true
  | (_, x) :: fs => jsonPure x && jsonPureFields fs
termination_by structural v => v

end

mutual

theorem decode_encodeVal : ∀ v, jsonPure v = true →
    ∀ j, encodeVal v = some j → decodeJ j = v
  | .vnull, _, _, h => by cases h; rfl
  | .vbool b, _, _, h => by cases h; rfl
  | .vint n, _, _, h => by cases h; rfl
  | .vstr s, _, _, h => by cases h; rfl
  | .vlist xs, hp, j, h => by
      match hxs : encodeValList xs with
      | some js =>
          rw [encodeVal, hxs, Option.map_some'] at h
          cases h
          rw [decodeJ, decode_encodeValList xs (by simpa [jsonPure] using hp)
            js hxs]
      | none => rw [encodeVal, hxs] at h; cases h
  | .vdict fs, hp, j, h => by
      match hfs : encodeValFields fs with
      | some js =>
          rw [encodeVal, hfs, Option.map_some'] at h
          cases h
          rw [decodeJ, decode_encodeValFields fs
            (by simpa [jsonPure] using hp) js hfs]
      | none => rw [encodeVal, hfs] at h; cases h

theorem decode_encodeValList : ∀ xs, jsonPureList xs = true →
    ∀ js, encodeValList xs = some js → decodeJList js = xs
  | [], _, _, h => by cases h; rfl
  | x :: xs, hp, js, h => by
      match hx : encodeVal x, hxs : encodeValList xs with
      | some j, some js2 =>
          rw [encodeValList, hx, hxs] at h
          cases h
          simp only [jsonPureList, Bool.and_eq_true] at hp
          rw [decodeJList, decode_encodeVal x hp.1 j hx,
            decode_encodeValList xs hp.2 js2 hxs]
      | some _, none => rw [encodeValList, hx, hxs] at h; cases h
      | none, _ => rw [encodeValList, hx] at h; cases h

theorem decode_encodeValFields : ∀ fs, jsonPureFields fs = true →
    ∀ js, encodeValFields fs = some js → decodeJFields js = fs
  | [], _, _, h => by cases h; rfl
  | (k, x) :: fs, hp, js, h => by
      match hx : encodeVal x, hfs : encodeValFields fs with
      | some j, some js2 =>
          rw [encodeValFields, hx, hfs] at h
          cases h
          simp only [jsonPureFields, Bool.and_eq_true] at hp
          rw [decodeJFields, decode_encodeVal x hp.1 j hx,
            decode_encodeValFields fs hp.2 js2 hfs]
      | some _, none => rw [encodeValFields, hx, hfs] at h; cases h
      | none, _ => rw [encodeValFields, hx] at h; cases h

end

mutual

theorem encodeVal_pure : ∀ v, jsonPure v = true → (encodeVal v).isSome = true
  | .vnull, _ => rfl
  | .vbool _, _ => rfl
  | .vint _, _ => rfl
  | .vstr _, _ => rfl
  | .vlist xs, hp => by
      have h := encodeValList_pure xs (by simpa [jsonPure] using hp)
      rcases Option.isSome_iff_exists.mp h with ⟨js, hjs⟩
      rw [encodeVal, hjs]; rfl
  | .vdict fs, hp => by
      have h := encodeValFields_pure fs (by simpa [jsonPure] using hp)
      rcases Option.isSome_iff_exists.mp h with ⟨js, hjs⟩
      rw [encodeVal, hjs]; rfl
  | .vset _, hp => by simp [jsonPure] at hp
  | .vdatetime _, hp => by simp [jsonPure] at hp
  | .vresp .., hp => by simp [jsonPure] at hp

theorem encodeValList_pure :
    ∀ xs, jsonPureList xs = true → (encodeValList xs).isSome = true
  | [], _ => rfl
  | x :: xs, hp => by
      simp only [jsonPureList, Bool.and_eq_true] at hp
      rcases Option.isSome_iff_exists.mp (encodeVal_pure x hp.1) with ⟨j, hj⟩
      rcases Option.isSome_iff_exists.mp (encodeValList_pure xs hp.2) with
        ⟨js, hjs⟩
      rw [encodeValList, hj, hjs]; rfl

theorem encodeValFields_pure :
    ∀ fs, jsonPureFields fs = true → (encodeValFields fs).isSome = true
  | [], _ => rfl
  | (k, x) :: fs, hp => by
      simp only [jsonPureFields, Bool.and_eq_true] at hp
      rcases Option.isSome_iff_exists.mp (encodeVal_pure x hp.1) with ⟨j, hj⟩
      rcases Option.isSome_iff_exists.mp (encodeValFields_pure fs hp.2) with
        ⟨js, hjs⟩
      rw [encodeValFields, hj, hjs]; rfl

end

/-- `model_dump` of one stored item followed by `orjson` encoding with
`date_encoder`: fields in the declaration order of `Response`/`SetItem`
(key, value, expired, created, updated, id), timestamps as ISO strings,
identifier as its canonical string. -/
def encodeEntry (e : Entry) : Option J :=
  (encodeVal e.value).map fun jv =>
    .jobj [("key", .jstr e.key), ("value", jv),
      ("expired", .jstr (natStr e.expired)),
      ("created", .jstr (natStr e.created)),
      ("updated", .jstr (natStr e.updated)),
      ("id", .jstr (natStr e.id))]

/-- pydantic validation of one stored item read back from the file. -/
def decodeEntry : J → Option Entry
  | .jobj fs =>
      match alGet fs "key", alGet fs "value", alGet fs "expired",
          alGet fs "created", alGet fs "updated", alGet fs "id" with
      | some (.jstr k), some jv, some (.jstr ex), some (.jstr cr),
          some (.jstr up), some (.jstr idv) =>
          some ⟨k, decodeJ jv, parseNatStr ex, parseNatStr cr, parseNatStr up,
            parseNatStr idv⟩
      | _, _, _, _, _, _ => none
  | _ => none

/-- Encode the `items` dict of a table. -/
def encodeItems : List (String × Entry) → Option (List (String × J))
  | [] => some []
  | (k, e) :: rest =>
      match encodeEntry e, encodeItems rest with
      | some j, some js => some ((k, j) :: js)
      | _, _ => none

/-- Decode the `items` dict of a table. -/
def decodeItems : List (String × J) → Option (List (String × Entry))
  | [] => some []
  | (k, j) :: rest =>
      match decodeEntry j, decodeItems rest with
      | some e, some es => some ((k, e) :: es)
      | _, _ => none

/-- Encode one `Table` (fields in declaration order: name, items). -/
def encodeTable (t : Table) : Option J :=
  (encodeItems t.items).map fun js =>
    .jobj [("name", .jstr t.name), ("items", .jobj js)]

/-- Decode one `Table`. -/
def decodeTable : J → Option Table
  | .jobj fs =>
      match alGet fs "name", alGet fs "items" with
      | some (.jstr n), some (.jobj js) =>
          (decodeItems js).map fun is2 => ⟨n, is2⟩
      | _, _ => none
  | _ => none

/-- Encode the `tables` dict of the Store Image. -/
def encodeTables : List (String × Table) → Option (List (String × J))
  | [] => some []
  | (k, t) :: rest =>
      match encodeTable t, encodeTables rest with
      | some j, some js => some ((k, j) :: js)
      | _, _ => none

/-- Decode the `tables` dict of the Store Image. -/
def decodeTables : List (String × J) → Option (List (String × Table))
  | [] => some []
  | (k, j) :: rest =>
      match decodeTable j, decodeTables rest with
      | some t, some ts => some ((k, t) :: ts)
      | _, _ => none

/-- `orjson.dumps(self.data.model_dump(), default=date_encoder)`:
serialization of the whole Store Image, `none` when a payload (a Python set,
a stored `Response` object) defeats `orjson` and the dump raises
`TypeError`. -/
def encodeStorage (img : Storage) : Option J :=
  (encodeTables img.tables).map fun ts => .jobj [("tables", .jobj ts)]

/-- `Storage.model_validate_json`: deserialization of the whole Store Image,
`none` when validation fails (pydantic `ValidationError`, a subclass of
`ValueError`, which `_load` catches). -/
def decodeStorage : J → Option Storage
  | .jobj fs =>
      match alGet fs "tables" with
      | some (.jobj js) => (decodeTables js).map fun ts => ⟨ts⟩
      | _ => none
  | _ => none

/-- `Storage(tables={})`. -/
def emptyStorage : Storage := ⟨[]⟩

/-- The serialized empty Store Image, the content `_load` recovery and
`__init_storage` write to the backing file. -/
def emptyImageJ : J := .jobj [("tables", .jobj [])]

theorem encodeStorage_empty : encodeStorage emptyStorage = some emptyImageJ :=
  rfl

theorem decodeStorage_empty : decodeStorage emptyImageJ = some emptyStorage :=
  rfl

/-- All payloads of an item list are JSON-pure. -/
def jsonPureItems : List (String × Entry) → Bool
  | [] => true
  | (_, e) :: rest => jsonPure e.value && jsonPureItems rest

/-- All payloads of a table list are JSON-pure. -/
def jsonPureTables : List (String × Table) → Bool
  | [] => true
  | (_, t) :: rest => jsonPureItems t.items && jsonPureTables rest

/-- All payloads of a Store Image are JSON-pure. -/
def jsonPureStorage (img : Storage) : Bool := jsonPureTables img.tables

theorem decode_encodeEntry (e : Entry) (hp : jsonPure e.value = true) :
    ∀ j, encodeEntry e = some j → decodeEntry j = some e := by
  intro j h
  rcases Option.isSome_iff_exists.mp (encodeVal_pure e.value hp) with ⟨jv, hjv⟩
  rw [encodeEntry, hjv, Option.map_some'] at h
  cases h
  simp [decodeEntry, alGet, decode_encodeVal e.value hp jv hjv,
    parseNatStr_natStr]

theorem decode_encodeItems :
    ∀ is2, jsonPureItems is2 = true →
      ∀ js, encodeItems is2 = some js → decodeItems js = some is2
  | [], _, _, h => by cases h; rfl
  | (k, e) :: rest, hp, js, h => by
      simp only [jsonPureItems, Bool.and_eq_true] at hp
      match he : encodeEntry e, hrest : encodeItems rest with
      | some j, some js2 =>
          rw [encodeItems, he, hrest] at h
          cases h
          rw [decodeItems, decode_encodeEntry e hp.1 j he,
            decode_encodeItems rest hp.2 js2 hrest]
      | some _, none => rw [encodeItems, he, hrest] at h; cases h
      | none, _ => rw [encodeItems, he] at h; cases h

theorem decode_encodeTable (t : Table) (hp : jsonPureItems t.items = true) :
    ∀ j, encodeTable t = some j → decodeTable j = some t := by
  intro j h
  match hjs : encodeItems t.items with
  | some js =>
      rw [encodeTable, hjs, Option.map_some'] at h
      cases h
      simp [decodeTable, alGet, decode_encodeItems t.items hp js hjs]
  | none => rw [encodeTable, hjs] at h; cases h

theorem decode_encodeTables :
    ∀ ts, jsonPureTables ts = true →
      ∀ js, encodeTables ts = some js → decodeTables js = some ts
  | [], _, _, h => by cases h; rfl
  | (k, t) :: rest, hp, js, h => by
      simp only [jsonPureTables, Bool.and_eq_true] at hp
      match ht : encodeTable t, hrest : encodeTables rest with
      | some j, some js2 =>
          rw [encodeTables, ht, hrest] at h
          cases h
          rw [decodeTables, decode_encodeTable t hp.1 j ht,
            decode_encodeTables rest hp.2 js2 hrest]
      | some _, none => rw [encodeTables, ht, hrest] at h; cases h
      | none, _ => rw [encodeTables, ht] at h; cases h

/-- Round-trip of the whole Store Image through the backing-file codec, for
images whose payloads are JSON-pure. -/
theorem decode_encodeStorage (img : Storage)
    (hp : jsonPureStorage img = true) :
    ∀ j, encodeStorage img = some j → decodeStorage j = some img := by
  intro j h
  match hts : encodeTables img.tables with
  | some ts =>
      rw [encodeStorage, hts, Option.map_some'] at h
      cases h
      simp [decodeStorage, alGet, decode_encodeTables img.tables hp ts hts]
  | none => rw [encodeStorage, hts] at h; cases h

/-- A JSON-pure image always serializes. -/
theorem encodeStorage_pure_isSome (img : Storage)
    (hp : jsonPureStorage img = true) : (encodeStorage img).isSome = true := by
  have main : ∀ ts, jsonPureTables ts = true →
      (encodeTables ts).isSome = true := by
    intro ts
    induction ts with
    | nil => intro _; rfl
    | cons kt rest ih =>
        intro hp2
        obtain ⟨k, t⟩ := kt
        simp only [jsonPureTables, Bool.and_eq_true] at hp2
        have hitems : ∀ is2, jsonPureItems is2 = true →
            (encodeItems is2).isSome = true := by
          intro is2
          induction is2 with
          | nil => intro _; rfl
          | cons ke rest2 ih2 =>
              intro hp3
              obtain ⟨k2, e⟩ := ke
              simp only [jsonPureItems, Bool.and_eq_true] at hp3
              rcases Option.isSome_iff_exists.mp
                (encodeVal_pure e.value hp3.1) with ⟨jv, hjv⟩
              rcases Option.isSome_iff_exists.mp (ih2 hp3.2) with ⟨js, hjs⟩
              rw [encodeItems, encodeEntry, hjv, Option.map_some', hjs]; rfl
        rcases Option.isSome_iff_exists.mp (hitems t.items hp2.1) with
          ⟨js, hjs⟩
        rcases Option.isSome_iff_exists.mp (ih hp2.2) with ⟨js2, hjs2⟩
        rw [encodeTables, encodeTable, hjs, Option.map_some', hjs2]; rfl
  rcases Option.isSome_iff_exists.mp (main img.tables hp) with ⟨ts, hts⟩
  rw [encodeStorage, hts]; rfl

/-- Generic association lookup for cache keys. -/
def cGet {κ α : Type} [DecidableEq κ] : List (κ × α) → κ → Option α
  | [], _ => none
  | (k, v) :: rest, key => if k = key then some v else cGet rest key

/-- Generic association store for cache keys. -/
def cSet {κ α : Type} [DecidableEq κ] :
    List (κ × α) → κ → α → List (κ × α)
  | [], key, v => [(key, v)]
  | (k, w) :: rest, key, v =>
      if k = key then (k, v) :: rest else (k, w) :: cSet rest key v

/-- The full sequential state of the singleton and its environment: the
backing file, the in-memory Image (`self.data`), the dirty flag and the
flusher wake event, the two slices of the shared `TTLCache` (`get` keys are
`hashkey(self, key, table_name)`, `get_all` keys are
`hashkey(self, table_name)`; the `Bool` in each key records whether
`table_name` was passed as a keyword, since `hashkey` separates positional
from keyword arguments), the `datetime.now()` reading stream, and the
uuid4 freshness counter. -/
structure St where
  file : FileImage
  mem : Storage
  dirty : Bool
  flushEvent : Bool
  cacheG : List ((String × String × Bool) × Option GetItem)
  cacheA : List ((Option String × Bool) × Option (List GetItem))
  clock : Nat → Nat
  tick : Nat
  nextId : Nat

namespace Store

/-- One `datetime.now()` reading. -/
def now (s : St) : Nat × St := (s.clock s.tick, { s with tick := s.tick + 1 })

/-- One `uuid4()` draw. -/
def fresh (s : St) : Nat × St := (s.nextId, { s with nextId := s.nextId + 1 })

/-- `Singleton._mark_dirty`: set the dirty flag and wake the flusher. -/
def mark_dirty (s : St) : St := { s with dirty := true, flushEvent := true }

/-- `Singleton._load`: read the backing file; an empty file, or one whose
content fails `Storage.model_validate_json` (pydantic `ValidationError` is a
`ValueError`, caught together with `json.JSONDecodeError`), resets the
in-memory Image to `Storage(tables={})` and immediately flushes it — the
inlined flush always succeeds because the empty image serializes to
`emptyImageJ` (`encodeStorage_empty`). -/
def load (s : St) : St :=
  match s.file with
  | .empty =>
      { s with
        mem := emptyStorage, file := .jdata emptyImageJ, dirty := false }
  | .corrupt =>
      { s with
        mem := emptyStorage, file := .jdata emptyImageJ, dirty := false }
  | .jdata j =>
      match decodeStorage j with
      | some img => { s with mem := img }
      | none =>
          { s with
            mem := emptyStorage, file := .jdata emptyImageJ, dirty := false }

/-- `Singleton._flush`: serialize the whole Image and overwrite the backing
file, clearing the dirty flag; raises `TypeError` (leaving the file
untouched) when `orjson` cannot serialize a stored payload. -/
def flush (s : St) : Except PyErr Unit × St :=
  match encodeStorage s.mem with
  | some j => (.ok (), { s with file := .jdata j, dirty := false })
  | none => (.error .typeError, s)

/-- One pass of the `_auto_flush` background loop after its wait returns:
flush if dirty, then clear the wake event. -/
def auto_flush_tick (s : St) : Except PyErr Unit × St :=
  if s.dirty then
    match flush s with
    | (r, s2) => (r, { s2 with flushEvent := false })
  else (.ok (), { s with flushEvent := false })

/-- `table_name in self.data.tables`. -/
def tableMem (t : String) (s : St) : Bool := (alGet s.mem.tables t).isSome

/-- `self.data.tables[table_name]`; every use below is guarded by the
auto-create step, so the default is unreachable. -/
def getTable (t : String) (s : St) : Table :=
  (alGet s.mem.tables t).getD ⟨t, []⟩

/-- `self.data.tables[table_name] = tbl`. -/
def setTable (t : String) (tbl : Table) (s : St) : St :=
  { s with mem := ⟨alSet s.mem.tables t tbl⟩ }

/-- `self.data.tables[table_name].items = is2` (in-place item replacement,
table name preserved). -/
def setItems (t : String) (is2 : List (String × Entry)) (s : St) : St :=
  setTable t { getTable t s with items := is2 } s

/-- `Singleton.create_table`: reloads the Image from disk, then no-op if the
table exists, else insert an empty table and mark dirty. -/
def create_table (t : String) (s : St) : Option Table × St :=
  let s1 := load s
  if tableMem t s1 then (none, s1)
  else
    let tbl : Table := ⟨t, []⟩
    (some tbl, mark_dirty (setTable t tbl s1))

/-- The recurring `# Fix: Auto-crea tabla si no existe` pattern:
`if table_name not in self.data.tables: self.create_table(table_name)`. -/
def ensureTable (t : String) (s : St) : St :=
  if tableMem t s then s else (create_table t s).2

/-- `Singleton._get_internal_all`: reload, auto-create, then either `None`
(table empty) or the list of `GetItem(key=item.key, value=Response(...))`
wrappers, the `Response` copying exactly the six stored fields. -/
def get_internal_all (t : String) (s : St) : Option (List GetItem) × St :=
  let s1 := load s
  let s2 := ensureTable t s1
  let items := (getTable t s2).items
  if items.isEmpty then (none, s2)
  else (some (items.map fun p => ⟨p.2.key, p.2⟩), s2)

/-- `Singleton.purge_expired`: auto-create, fetch the live view, and if any
items exist rebuild the table keeping exactly the entries with
`expired > now` (one `datetime.now()` reading), keyed by each item's own
`key` field. -/
def purge_expired (t : String) (s : St) : St :=
  let s1 := ensureTable t s
  match get_internal_all t s1 with
  | (none, s2) => s2
  | (some items, s2) =>
      let (n, s3) := now s2
      setItems t
        (items.filterMap fun gi =>
          if n < gi.value.expired then some (gi.key, gi.value) else none) s3

/-- `PurgeMeta.wrap_with_purge`: before the wrapped method body runs, if
`kwargs.get("table_name")` is truthy (present as a keyword and non-empty),
purge that table and mark the Image dirty. -/
def wrapPurge {ρ : Type} (kwT : Option String) (body : St → ρ × St)
    (s : St) : ρ × St :=
  match kwT with
  | some t => if t = "" then body s else body (mark_dirty (purge_expired t s))
  | none => body s

/-- The `table_name` value visible to the wrapper: the argument itself when
passed as a keyword, absent from `kwargs` when passed positionally. -/
def kwArg (kw : Bool) (t : Option String) : Option String :=
  if kw then t else none

/-- The `@cached(_cache)` body of `Singleton.get`: consult the cache under
`hashkey(self, key, table_name)`, else reload, auto-create, look the key up,
and cache the result (also when it is `None`). -/
def getBody (key t : String) (kw : Bool) (s : St) : Option GetItem × St :=
  match cGet s.cacheG (key, t, kw) with
  | some r => (r, s)
  | none =>
      let s1 := load s
      let s2 := ensureTable t s1
      let r : Option GetItem :=
        match alGet (getTable t s2).items key with
        | none => none
        | some e => some ⟨e.key, e⟩
      (r, { s2 with cacheG := cSet s2.cacheG (key, t, kw) r })

/-- Public `Singleton.get` as wrapped by `PurgeMeta`. -/
def get (key t : String) (kw : Bool) (s : St) : Option GetItem × St :=
  wrapPurge (kwArg kw (some t)) (getBody key t kw) s

/-- The `@cached(_cache)` body of `Singleton.get_all`: consult the cache
under `hashkey(self, table_name)`, else reload; `None` table name yields
`None`, otherwise auto-create and return the item list or `None` when the
table is empty; the result (also `None`) is cached. -/
def get_allBody (t : Option String) (kw : Bool) (s : St) :
    Option (List GetItem) × St :=
  match cGet s.cacheA (t, kw) with
  | some r => (r, s)
  | none =>
      let s1 := load s
      match t with
      | none => (none, { s1 with cacheA := cSet s1.cacheA (t, kw) none })
      | some tn =>
          let s2 := ensureTable tn s1
          let items := (getTable tn s2).items
          let r : Option (List GetItem) :=
            if items.isEmpty then none
            else some (items.map fun p => ⟨p.2.key, p.2⟩)
          (r, { s2 with cacheA := cSet s2.cacheA (t, kw) r })

/-- Public `Singleton.get_all` as wrapped by `PurgeMeta`. -/
def get_all (t : Option String) (kw : Bool) (s : St) :
    Option (List GetItem) × St :=
  wrapPurge (kwArg kw t) (get_allBody t kw) s

/-- The scan loop of `Singleton.get_by_parameter`: for each stored item,
`data = item.value.get(parameter, None)` — an `AttributeError` if the
payload is not a mapping — then the match test `if data:` (truthiness!)
followed by `type(data) == type(equals) and data == equals`; falls off the
loop into `raise NoneResultException`. -/
def gbpScan (p : String) (eqv : Val) :
    List (String × Entry) → Except PyErr GetItem
  | [] => .error .noneResult
  | (_, e) :: rest =>
      match e.value with
      | .vdict fs =>
          match alGet fs p with
          | some d =>
              if truthy d then
                if sameType d eqv && valBeq d eqv then .ok ⟨e.key, e⟩
                else gbpScan p eqv rest
              else gbpScan p eqv rest
          | none => gbpScan p eqv rest
      | _ => .error .attributeError

/-- Body of `Singleton.get_by_parameter` (the spec's `get_by_predicate`):
reload, auto-create, then the linear scan.  The `GetItem` returned wraps the
stored item itself (`GetItem(key=item.key, value=item)`). -/
def get_by_parameterBody (p : String) (eqv : Val) (t : String) (s : St) :
    Except PyErr GetItem × St :=
  let s1 := load s
  let s2 := ensureTable t s1
  (gbpScan p eqv (getTable t s2).items, s2)

/-- Public `Singleton.get_by_parameter` as wrapped by `PurgeMeta`. -/
def get_by_parameter (p : String) (eqv : Val) (t : String) (kw : Bool)
    (s : St) : Except PyErr GetItem × St :=
  wrapPurge (kwArg kw (some t)) (get_by_parameterBody p eqv t) s

/-- The three expiry TTLs of `set`: long-lived 30 days, short-lived
1 minute, default 15 minutes. -/
def ttlOf (longL shortL : Bool) : Nat :=
  if longL then 2592000 else if shortL then 60 else 900

/-- Body of `Singleton.set`: `ValueError` if both policies are requested
(before anything is constructed or written); otherwise build the `SetItem`
with three distinct `datetime.now()` readings (argument order: `created`,
`updated`, then the reading inside `expired = now + ttl`), auto-create the
table, store under `key`, mark dirty, and return the item. -/
def setBody (key : String) (v : Val) (t : String) (longL shortL : Bool)
    (s : St) : Except PyErr Entry × St :=
  if longL && shortL then (.error .valueError, s)
  else
    let (t1, s1) := now s
    let (t2, s2) := now s1
    let (idv, s3) := fresh s2
    let (t3, s4) := now s3
    let item : Entry := ⟨key, v, t3 + ttlOf longL shortL, t1, t2, idv⟩
    let s5 := ensureTable t s4
    (.ok item,
     mark_dirty (setItems t (alSet (getTable t s5).items key item) s5))

/-- Public `Singleton.set` as wrapped by `PurgeMeta`. -/
def set (key : String) (v : Val) (t : String) (longL shortL : Bool)
    (kw : Bool) (s : St) : Except PyErr Entry × St :=
  wrapPurge (kwArg kw (some t)) (setBody key v t longL shortL) s

/-- Body of `Singleton.delete`: auto-create the table, then
`del self.data.tables[table_name].items[key]` — a `KeyError` when the key
is absent (in particular always, on a just-auto-created empty table). -/
def deleteBody (key t : String) (s : St) : Except PyErr Unit × St :=
  let s1 := ensureTable t s
  match alGet (getTable t s1).items key with
  | none => (.error .keyError, s1)
  | some _ =>
      (.ok (), mark_dirty (setItems t (alDel (getTable t s1).items key) s1))

/-- Public `Singleton.delete` as wrapped by `PurgeMeta`. -/
def delete (key t : String) (kw : Bool) (s : St) : Except PyErr Unit × St :=
  wrapPurge (kwArg kw (some t)) (deleteBody key t) s

/-- Body of `Singleton.update`: auto-create, then `self.get(key,
table_name)` — a positional call through the wrapped, cached `get` — and if
absent `self.set(key, value, table_name)` (positional, default policy).
Otherwise build the replacement `SetItem`: `key=item.key`,
`value=item.value` — the old item's `Response` wrapper object, NOT the
caller's `value` argument, which is unused on this branch —
`created=item.value.created`, `updated=datetime.now()`, a fresh id, and
`expired` recomputed from now with the default or long-lived TTL. -/
def updateBody (key : String) (v : Val) (t : String) (longL : Bool)
    (s : St) : Except PyErr Unit × St :=
  let s1 := ensureTable t s
  match get key t false s1 with
  | (none, s2) =>
      match set key v t false false false s2 with
      | (.ok _, s3) => (.ok (), s3)
      | (.error e, s3) => (.error e, s3)
  | (some gi, s2) =>
      let (tu, s3) := now s2
      let (idv, s4) := fresh s3
      let (te, s5) := now s4
      let newItem : Entry :=
        ⟨gi.key,
         .vresp gi.value.key gi.value.value (some gi.value.expired)
           (some gi.value.created) (some gi.value.updated)
           (some gi.value.id),
         te + (if longL then 2592000 else 900),
         gi.value.created, tu, idv⟩
      (.ok (),
       mark_dirty (setItems t (alSet (getTable t s5).items key newItem) s5))

/-- Public `Singleton.update` as wrapped by `PurgeMeta`. -/
def update (key : String) (v : Val) (t : String) (longL : Bool) (kw : Bool)
    (s : St) : Except PyErr Unit × St :=
  wrapPurge (kwArg kw (some t)) (updateBody key v t longL) s

end Store

/-- A fresh process state right after `__init_storage` on a new backing
file: the file holds the serialized empty image, nothing is dirty, the cache
is cold, and the clock stream is strictly increasing (reading k returns k),
the realistic case of a clock that advances between `datetime.now()`
calls. -/
def initSt : St :=
  { file := .jdata emptyImageJ
    mem := emptyStorage
    dirty := false
    flushEvent := false
    cacheG := []
    cacheA := []
    clock := fun n => n
    tick := 0
    nextId := 0 }

/-- The same fresh state under a frozen clock (every `datetime.now()` call
returns 0): the idealized case in which all readings inside one operation
coincide. -/
def flatSt : St := { initSt with clock := fun _ => 0 }

/-- A live stored entry (expiry 1000, far beyond the sample clock). -/
def sampleEntry : Entry := ⟨"k", Val.vstr "v1", 1000, 5, 5, 77⟩

/-- An image holding exactly `sampleEntry` in table `"t"`. -/
def sampleImg : Storage := ⟨[("t", ⟨"t", [("k", sampleEntry)]⟩)]⟩

/-- A settled process state: `sampleImg` both in memory and flushed to the
backing file, cold cache, clock readings starting at 100. -/
def sampleSt : St :=
  { file := .jdata ((encodeStorage sampleImg).getD emptyImageJ)
    mem := sampleImg
    dirty := false
    flushEvent := false
    cacheG := []
    cacheA := []
    clock := fun n => 100 + n
    tick := 0
    nextId := 3 }

/-- An already-expired stored entry (`expired = 50`, every clock reading of
`expiredSt` is at least 100). -/
def expiredEntry : Entry := ⟨"k", Val.vstr "v1", 50, 5, 5, 77⟩

/-- An image holding exactly `expiredEntry` in table `"t"`. -/
def expiredImg : Storage := ⟨[("t", ⟨"t", [("k", expiredEntry)]⟩)]⟩

/-- Like `sampleSt` but with the expired entry on disk and in memory. -/
def expiredSt : St :=
  { sampleSt with
    file := .jdata ((encodeStorage expiredImg).getD emptyImageJ)
    mem := expiredImg }

/-- C1: the claim says `update(key, value, table)` on an existing entry
stores the caller-supplied value.  The code (`singleton_class.py` line 361)
instead passes `value=item.value` — the old entry's `Response` wrapper —
into the replacement `SetItem`, and never uses the `value` argument on this
branch.  Evaluated at the failing input: updating key `"k"` (stored value
`"v1"`) with new value `"v2"` succeeds, but the stored entry's value is the
`Response` wrapper of the old entry, not `"v2"`; `created` is preserved (5),
`updated` advanced to the clock reading 100, the id is fresh (3), and
`expired` is recomputed (101 + 900). -/
theorem c1_update_discards_caller_value :
    (Store.update "k" (Val.vstr "v2") "t" false false sampleSt).1 = .ok () ∧
    alGet (Store.getTable "t"
        (Store.update "k" (Val.vstr "v2") "t" false false sampleSt).2).items
      "k" =
      some ⟨"k",
        Val.vresp "k" (Val.vstr "v1") (some 1000) (some 5) (some 5) (some 77),
        1001, 5, 100, 3⟩ ∧
    Val.vresp "k" (Val.vstr "v1") (some 1000) (some 5) (some 5) (some 77) ≠
      Val.vstr "v2" ∧
    sampleEntry.created = 5 :=
  ⟨rfl, by decide, by decide, rfl⟩

/-- C2: the claim says `delete(key, table)` never raises and degrades to a
no-op on a missing table or key.  The code auto-creates a missing table but
then executes `del self.data.tables[table_name].items[key]`, which raises
`KeyError` whenever the key is absent — in particular always on the
just-auto-created empty table.  Evaluated at the failing inputs: deleting
from a never-populated table of a fresh store, and deleting an absent key
from an existing table, both raise `KeyError`. -/
theorem c2_delete_missing_key_raises :
    (Store.delete "k" "t" true initSt).1 = .error .keyError ∧
    (Store.delete "absent" "t" false sampleSt).1 = .error .keyError :=
  ⟨rfl, rfl⟩

/-- C3: the claim says a `get` immediately following a `set` in the same
process sees the write even before any flush, with `created == updated`.
In the code every read path starts with `self._load()`, which replaces the
in-memory Image with the parsed backing file; a write only marks the Image
dirty, so before the background flusher runs the file does not contain it.
Evaluated at the failing input: on a fresh store, `set("u1", {"a":1}, "t")`
succeeds (and its entry already has `created = 0 ≠ 1 = updated` under a
ticking clock), the backing file is still the empty image, and the
immediately following `get("u1", "t")` returns absent, not the written
entry. -/
theorem c3_get_after_set_returns_absent :
    (Store.set "u1" (Val.vdict [("a", Val.vint 1)]) "t" false false true
        initSt).1 =
      .ok ⟨"u1", Val.vdict [("a", Val.vint 1)], 902, 0, 1, 0⟩ ∧
    ((Store.set "u1" (Val.vdict [("a", Val.vint 1)]) "t" false false true
        initSt).2).file = .jdata emptyImageJ ∧
    (Store.get "u1" "t" true
        (Store.set "u1" (Val.vdict [("a", Val.vint 1)]) "t" false false true
          initSt).2).1 = none :=
  ⟨rfl, rfl, rfl⟩

theorem alGet_alSet_self {α : Type} (d : List (String × α)) (k : String)
    (v : α) : alGet (alSet d k v) k = some v := by
  induction d with
  | nil => simp [alSet, alGet]
  | cons p rest ih =>
      obtain ⟨k2, w⟩ := p
      by_cases h : k2 = k <;> simp [alSet, alGet, h, ih]

theorem getTable_setItems (t : String) (is2 : List (String × Entry))
    (s : St) :
    (Store.getTable t (Store.setItems t is2 s)).items = is2 := by
  simp [Store.setItems, Store.setTable, Store.getTable, alGet_alSet_self]

theorem load_clock (s : St) : (Store.load s).clock = s.clock := by
  unfold Store.load
  cases s.file with
  | empty => rfl
  | corrupt => rfl
  | jdata j => rcases h : decodeStorage j with _ | img <;> simp [h]

theorem load_tick (s : St) : (Store.load s).tick = s.tick := by
  unfold Store.load
  cases s.file with
  | empty => rfl
  | corrupt => rfl
  | jdata j => rcases h : decodeStorage j with _ | img <;> simp [h]

theorem create_table_clock (t : String) (s : St) :
    ((Store.create_table t s).2).clock = s.clock := by
  unfold Store.create_table
  by_cases h : Store.tableMem t (Store.load s) <;>
    simp [h, Store.mark_dirty, Store.setTable, load_clock]

theorem create_table_tick (t : String) (s : St) :
    ((Store.create_table t s).2).tick = s.tick := by
  unfold Store.create_table
  by_cases h : Store.tableMem t (Store.load s) <;>
    simp [h, Store.mark_dirty, Store.setTable, load_tick]

theorem ensureTable_clock (t : String) (s : St) :
    (Store.ensureTable t s).clock = s.clock := by
  unfold Store.ensureTable
  by_cases h : Store.tableMem t s <;> simp [h, create_table_clock]

theorem ensureTable_tick (t : String) (s : St) :
    (Store.ensureTable t s).tick = s.tick := by
  unfold Store.ensureTable
  by_cases h : Store.tableMem t s <;> simp [h, create_table_tick]

/-- C4, counterexample: the claim says that before every public
table-scoped operation on `t` the table is purged, so that afterwards every
remaining entry of `t` has `expired` strictly above the purge time.  On a
store whose table `"t"` holds an entry with `expired = 50` while every
clock reading is at least 100, a keyword-invoked `get` — the wrapper DOES
fire and purge here — still ends with the expired entry present in the
table (the method body's `_load()` re-reads it from the backing file after
the purge), and `get` even returns that expired entry. -/
theorem c4_counterexample :
    (Store.get "k" "t" true expiredSt).1 = some ⟨"k", expiredEntry⟩ ∧
    alGet (Store.getTable "t" (Store.get "k" "t" true expiredSt).2).items
      "k" = some expiredEntry ∧
    expiredEntry.expired = 50 ∧
    expiredSt.clock expiredSt.tick = 100 :=
  ⟨rfl, by decide, rfl, rfl⟩

/-- C4, amended: the pre-operation purge runs only when `table_name` is
passed as a truthy keyword argument — a positional call goes straight to
the method body (`wrapPurge none` is the identity on the body) — and the
purge invariant holds exactly at the moment `purge_expired` returns: every
entry then remaining in the in-memory target table has `expired` strictly
greater than the purge's `datetime.now()` reading (the clock value at the
current tick).  It does not survive the rest of the operation, whose own
reload from the not-yet-flushed backing file can restore expired
entries (`c4_counterexample`). -/
theorem c4_amended (t : String) (s : St) :
    (∀ (ρ : Type) (body : St → ρ × St) (s2 : St),
        Store.wrapPurge none body s2 = body s2) ∧
    ∀ k e, (k, e) ∈ (Store.getTable t (Store.purge_expired t s)).items →
      s.clock s.tick < e.expired := by
  refine ⟨fun ρ body s2 => rfl, ?_⟩
  intro k e hmem
  simp only [Store.purge_expired, Store.get_internal_all] at hmem
  set sL := Store.ensureTable t (Store.load (Store.ensureTable t s))
    with hsL
  have hclock : sL.clock = s.clock := by
    rw [hsL, ensureTable_clock, load_clock, ensureTable_clock]
  have htick : sL.tick = s.tick := by
    rw [hsL, ensureTable_tick, load_tick, ensureTable_tick]
  rcases hItems : (Store.getTable t sL).items with _ | ⟨q, rest⟩
  · simp [hItems] at hmem
  · simp only [hItems, List.isEmpty_cons, Store.now] at hmem
    rw [if_neg (by simp)] at hmem
    simp only [] at hmem
    rw [getTable_setItems] at hmem
    rcases List.mem_filterMap.mp hmem with ⟨gi, hin, hf⟩
    by_cases hlt : sL.clock sL.tick < gi.value.expired
    · rw [if_pos hlt] at hf
      cases hf
      rw [hclock, htick] at hlt
      exact hlt
    · rw [if_neg hlt] at hf
      cases hf

/-- Witness for `c4_amended`: on `sampleSt` the live entry (expiry 1000,
purge-time reading 100) survives the purge, and the theorem instantiated
there yields `100 < 1000`. -/
theorem c4_amended_witness :
    ("k", sampleEntry) ∈
      (Store.getTable "t" (Store.purge_expired "t" sampleSt)).items ∧
    sampleSt.clock sampleSt.tick < sampleEntry.expired :=
  ⟨by decide, (c4_amended "t" sampleSt).2 "k" sampleEntry (by decide)⟩

/-- C5, counterexample: the claim says `set` with both `long_live=true`
and `short_live=true` fails fast with no state change — no entry written,
no table created, the Image not marked dirty.  The `ValueError` is indeed
raised before `set`'s own body writes anything, but when `table_name` is
supplied as a keyword the `PurgeMeta` wrapper has already run: on a fresh
store, the conflicting-policy `set` into missing table `"t"` raises, yet
afterwards table `"t"` exists and the Image is dirty. -/
theorem c5_counterexample :
    (Store.set "k" (Val.vstr "x") "t" true true true initSt).1 =
      .error .valueError ∧
    Store.tableMem "t"
      (Store.set "k" (Val.vstr "x") "t" true true true initSt).2 = true ∧
    ((Store.set "k" (Val.vstr "x") "t" true true true initSt).2).dirty =
      true :=
  ⟨rfl, by decide, rfl⟩

/-- C5, amended: `set` with both policies always fails with `ValueError`
and its own body leaves the state exactly as it received it (so no entry is
ever written); the complete state change of the call is precisely the
pre-operation purge wrapper's effect — purge of the target table (which
auto-creates it when missing and removes its expired entries) plus the
dirty marking — which happens exactly when `table_name` is passed as a
non-empty keyword argument. -/
theorem c5_amended (key : String) (v : Val) (t : String) (kw : Bool)
    (s : St) :
    Store.set key v t true true kw s =
      (.error .valueError,
       if kw = true ∧ t ≠ "" then Store.mark_dirty (Store.purge_expired t s)
       else s) := by
  cases kw <;> by_cases ht : t = "" <;>
    simp [Store.set, Store.wrapPurge, Store.kwArg, Store.setBody, ht]

/-- C6, counterexample: the claim says every entry written by `set` has
`expired - created` exactly equal to the policy TTL and `created = updated`.
`set` takes three separate `datetime.now()` readings; under a clock that
advances by one unit per reading (`initSt`), the default-policy entry gets
`created = 0`, `updated = 1`, `expired = 2 + 900`, so
`expired - created = 902 ≠ 900 = ttl` and `created ≠ updated`. -/
theorem c6_counterexample :
    (Store.set "k" (Val.vstr "x") "t" false false false initSt).1 =
      .ok ⟨"k", Val.vstr "x", 902, 0, 1, 0⟩ ∧
    (902 : Nat) - 0 ≠ Store.ttlOf false false ∧ (0 : Nat) ≠ 1 :=
  ⟨rfl, by decide, by decide⟩

/-- C6, amended: an entry written by `set` under a valid policy has
`created`, `updated` and the base of `expired` equal to the first, second
and third `datetime.now()` readings of the call, with
`expired = third reading + ttl(policy)`; when the clock readings of the
call coincide (the claim's idealization, hypotheses `h1`, `h2`),
`expired - created` equals exactly the TTL — 15 min default, 30 days
long-lived, 1 min short-lived — and `created = updated`. -/
theorem c6_amended (key : String) (v : Val) (t : String)
    (longL shortL : Bool) (s : St)
    (hpol : ¬(longL = true ∧ shortL = true))
    (h1 : s.clock (s.tick + 1) = s.clock s.tick)
    (h2 : s.clock (s.tick + 2) = s.clock s.tick) :
    ∃ e : Entry,
      (Store.set key v t longL shortL false s).1 = .ok e ∧
      alGet (Store.getTable t
          (Store.set key v t longL shortL false s).2).items key = some e ∧
      e.created = s.clock s.tick ∧
      e.updated = s.clock (s.tick + 1) ∧
      e.expired = s.clock (s.tick + 2) + Store.ttlOf longL shortL ∧
      e.expired - e.created = Store.ttlOf longL shortL ∧
      e.created = e.updated := by
  have hls : (longL && shortL) = false := by
    cases longL <;> cases shortL <;> simp_all
  refine ⟨⟨key, v, s.clock (s.tick + 2) + Store.ttlOf longL shortL,
    s.clock s.tick, s.clock (s.tick + 1), s.nextId⟩, ?_, ?_, rfl, rfl, rfl,
    ?_, ?_⟩
  · simp [Store.set, Store.wrapPurge, Store.kwArg, Store.setBody, hls,
      Store.now, Store.fresh]
  · simp [Store.set, Store.wrapPurge, Store.kwArg, Store.setBody, hls,
      Store.now, Store.fresh, Store.mark_dirty, Store.getTable,
      Store.setItems, Store.setTable, alGet_alSet_self]
  · dsimp only
    rw [h2]
    omega
  · dsimp only
    rw [h1]

/-- Witness for `c6_amended`: a long-lived `set` on the frozen-clock state
`flatSt` yields an entry with `expired - created = ttl` and
`created = updated`. -/
theorem c6_witness :
    ∃ e : Entry,
      (Store.set "k" (Val.vstr "x") "t" true false false flatSt).1 =
        .ok e ∧
      alGet (Store.getTable "t"
          (Store.set "k" (Val.vstr "x") "t" true false false
            flatSt).2).items "k" = some e ∧
      e.created = flatSt.clock flatSt.tick ∧
      e.updated = flatSt.clock (flatSt.tick + 1) ∧
      e.expired = flatSt.clock (flatSt.tick + 2) + Store.ttlOf true false ∧
      e.expired - e.created = Store.ttlOf true false ∧
      e.created = e.updated :=
  c6_amended "k" (Val.vstr "x") "t" true false flatSt (by simp) rfl rfl

/-- The stored payload is a Python mapping (`.get` is only defined on
mappings; any other payload makes `item.value.get(...)` raise
`AttributeError`). -/
def isMapping : Val → Bool
  | .vdict _ => true
  | _ => false

/-- The effective match test of `get_by_parameter` on one entry: the named
field of the payload exists, is TRUTHY (`if data:`), has the same Python
type as the probe, and equals it. -/
def gbpMatch (p : String) (eqv : Val) (e : Entry) : Bool :=
  match e.value with
  | .vdict fs =>
      match alGet fs p with
      | some d => truthy d && (sameType d eqv && valBeq d eqv)
      | none => false
  | _ => false

/-- The scan loop of `get_by_parameter` is `List.find?` under `gbpMatch`,
provided every scanned payload is a mapping. -/
theorem gbpScan_eq_find (p : String) (eqv : Val) :
    ∀ items : List (String × Entry),
      (∀ q ∈ items, isMapping q.2.value = true) →
      Store.gbpScan p eqv items =
        match items.find? (fun q => gbpMatch p eqv q.2) with
        | some q => .ok ⟨q.2.key, q.2⟩
        | none => .error .noneResult
  | [], _ => rfl
  | (k, e) :: rest, hd => by
      have he : isMapping e.value = true := hd (k, e) (by simp)
      have hrest := gbpScan_eq_find p eqv rest
        (fun q hq => hd q (List.mem_cons_of_mem _ hq))
      cases hv : e.value with
      | vdict fs =>
          simp only [Store.gbpScan, hv, List.find?_cons, gbpMatch]
          rcases hq : alGet fs p with _ | d
          · simpa [hq] using hrest
          · simp only [hq]
            by_cases htr : truthy d = true
            · by_cases heq : (sameType d eqv && valBeq d eqv) = true
              · simp [htr, heq]
              · rw [Bool.not_eq_true] at heq
                simp only [htr, heq, if_true, if_false, Bool.and_false,
                  Bool.false_eq_true]
                exact hrest
            · rw [Bool.not_eq_true] at htr
              simp only [htr, Bool.false_eq_true, if_false,
                Bool.false_and]
              exact hrest
      | vnull => simp [isMapping, hv] at he
      | vbool b => simp [isMapping, hv] at he
      | vint n => simp [isMapping, hv] at he
      | vstr a => simp [isMapping, hv] at he
      | vlist xs => simp [isMapping, hv] at he
      | vset xs => simp [isMapping, hv] at he
      | vdatetime a => simp [isMapping, hv] at he
      | vresp a b c d2 f g => simp [isMapping, hv] at he

/-- An entry whose payload field `"f"` holds the falsy value `0`. -/
def falsyEntry : Entry := ⟨"k1", Val.vdict [("f", Val.vint 0)], 1000, 5, 5, 8⟩

/-- An image holding exactly `falsyEntry` in table `"t"`. -/
def falsyImg : Storage := ⟨[("t", ⟨"t", [("k1", falsyEntry)]⟩)]⟩

/-- Like `sampleSt` but holding `falsyEntry` on disk and in memory. -/
def falsySt : St :=
  { sampleSt with
    file := .jdata ((encodeStorage falsyImg).getD emptyImageJ)
    mem := falsyImg }

/-- A non-matching password-reset entry. -/
def emailEntryA : Entry :=
  ⟨"k1", Val.vdict [("email", Val.vstr "other@example.com")], 1000, 5, 5, 8⟩

/-- The matching password-reset entry. -/
def emailEntryB : Entry :=
  ⟨"k2", Val.vdict [("email", Val.vstr "x@example.com")], 1000, 6, 6, 9⟩

/-- An image with two reset entries of which exactly one matches. -/
def emailImg : Storage :=
  ⟨[("reset", ⟨"reset", [("k1", emailEntryA), ("k2", emailEntryB)]⟩)]⟩

/-- Like `sampleSt` but holding the two reset entries. -/
def emailSt : St :=
  { sampleSt with
    file := .jdata ((encodeStorage emailImg).getD emptyImageJ)
    mem := emailImg }

/-- C7, counterexample: the claim says `get_by_predicate(f, v, t)` raises
NotFound if and only if no entry matches under identical-type equality.
The loop guard `if data:` additionally requires the field value to be
TRUTHY, so an entry whose field `"f"` holds `0` — equal to the probe `0`
under identical-type equality — is skipped, and the lookup raises
`NoneResultException` although a matching entry exists. -/
theorem c7_counterexample :
    alGet (Store.getTable "t" falsySt).items "k1" =
      some ⟨"k1", Val.vdict [("f", Val.vint 0)], 1000, 5, 5, 8⟩ ∧
    sameType (Val.vint 0) (Val.vint 0) = true ∧
    valBeq (Val.vint 0) (Val.vint 0) = true ∧
    (Store.get_by_parameter "f" (Val.vint 0) "t" false falsySt).1 =
      .error .noneResult :=
  ⟨by decide, rfl, rfl, rfl⟩

/-- C7, amended: provided every payload of the (reloaded, auto-created)
target table is a mapping, `get_by_parameter(f, v, t)` returns the first
entry whose field `f` is truthy, of identical type, and equal to `v`, and
raises NotFound (`NoneResultException`) if and only if no entry passes that
stricter test — entries whose field `f` is falsy (`0`, `""`, `False`,
empty collection, missing) are treated as non-matching even when equal to
`v`; a different-type field value is likewise non-matching, not an
error. -/
theorem c7_amended (p : String) (eqv : Val) (t : String) (s : St)
    (hd : ∀ q ∈ (Store.getTable t (Store.ensureTable t (Store.load s))).items,
        isMapping (Prod.snd q).value = true) :
    (Store.get_by_parameter p eqv t false s).1 =
      match (Store.getTable t
          (Store.ensureTable t (Store.load s))).items.find?
          (fun q => gbpMatch p eqv q.2) with
      | some q => .ok ⟨q.2.key, q.2⟩
      | none => .error .noneResult := by
  have h := gbpScan_eq_find p eqv
    ((Store.getTable t (Store.ensureTable t (Store.load s))).items) hd
  simpa [Store.get_by_parameter, Store.wrapPurge, Store.kwArg,
    Store.get_by_parameterBody] using h

/-- Witness for `c7_amended`: the spec's scenario — two reset entries with
different keys, one matching `email = "x@example.com"` — returns exactly
the matching entry. -/
theorem c7_witness :
    (Store.get_by_parameter "email" (Val.vstr "x@example.com") "reset" false
        emailSt).1 = .ok ⟨"k2", emailEntryB⟩ := by
  rw [c7_amended "email" (Val.vstr "x@example.com") "reset" emailSt
    (by decide)]
  rfl

theorem load_cacheA (s : St) : (Store.load s).cacheA = s.cacheA := by
  unfold Store.load
  cases s.file with
  | empty => rfl
  | corrupt => rfl
  | jdata j => rcases h : decodeStorage j with _ | img <;> simp [h]

theorem create_table_cacheA (t : String) (s : St) :
    ((Store.create_table t s).2).cacheA = s.cacheA := by
  unfold Store.create_table
  by_cases h : Store.tableMem t (Store.load s) <;>
    simp [h, Store.mark_dirty, Store.setTable, load_cacheA]

theorem ensureTable_cacheA (t : String) (s : St) :
    (Store.ensureTable t s).cacheA = s.cacheA := by
  unfold Store.ensureTable
  by_cases h : Store.tableMem t s <;> simp [h, create_table_cacheA]

theorem purge_expired_cacheA (t : String) (s : St) :
    (Store.purge_expired t s).cacheA = s.cacheA := by
  unfold Store.purge_expired Store.get_internal_all
  set sL := Store.ensureTable t (Store.load (Store.ensureTable t s))
    with hsL
  have hA : sL.cacheA = s.cacheA := by
    rw [hsL, ensureTable_cacheA, load_cacheA, ensureTable_cacheA]
  by_cases hempty : (Store.getTable t sL).items.isEmpty <;>
    simp [hempty, Store.now, Store.setItems, Store.setTable, hA] <;>
    exact hA

theorem load_file_healed (s : St) (h : s.file = .jdata emptyImageJ) :
    (Store.load s).file = .jdata emptyImageJ := by
  simp [Store.load, h, decodeStorage_empty]

theorem create_table_file_healed (t : String) (s : St)
    (h : s.file = .jdata emptyImageJ) :
    ((Store.create_table t s).2).file = .jdata emptyImageJ := by
  unfold Store.create_table
  by_cases hm : Store.tableMem t (Store.load s) <;>
    simp [hm, Store.mark_dirty, Store.setTable, load_file_healed s h]

theorem ensureTable_file_healed (t : String) (s : St)
    (h : s.file = .jdata emptyImageJ) :
    (Store.ensureTable t s).file = .jdata emptyImageJ := by
  unfold Store.ensureTable
  by_cases hm : Store.tableMem t s <;>
    simp [hm, create_table_file_healed t s h, h]

theorem purge_expired_file_healed (t : String) (s : St)
    (h : s.file = .jdata emptyImageJ) :
    (Store.purge_expired t s).file = .jdata emptyImageJ := by
  unfold Store.purge_expired Store.get_internal_all
  set sL := Store.ensureTable t (Store.load (Store.ensureTable t s))
    with hsL
  have hF : sL.file = .jdata emptyImageJ := by
    rw [hsL]
    exact ensureTable_file_healed _ _
      (load_file_healed _ (ensureTable_file_healed _ _ h))
  by_cases hempty : (Store.getTable t sL).items.isEmpty <;>
    simp [hempty, Store.now, Store.setItems, Store.setTable, hF] <;>
    exact hF

/-- On a state whose backing file holds the healed empty image, a cache-miss
`get_all` body returns `None` for any table (reload yields the empty image;
the table is auto-created empty). -/
theorem get_allBody_healed (tn : String) (kw : Bool) (x : St)
    (hf : x.file = .jdata emptyImageJ)
    (hm : cGet x.cacheA (some tn, kw) = none) :
    (Store.get_allBody (some tn) kw x).1 = none := by
  unfold Store.get_allBody
  rw [hm]
  simp [Store.load, hf, decodeStorage_empty, Store.ensureTable,
    Store.tableMem, Store.getTable, Store.create_table, emptyStorage,
    alGet, Store.mark_dirty, Store.setTable, alSet]

/-- A state with a corrupted backing file but a still-warm `get_all` cache
line for table `"t"` (cached within the last minute, before the
corruption). -/
def staleSt : St :=
  { sampleSt with
    file := .corrupt
    cacheA := [((some "t", true), some [⟨"k", sampleEntry⟩])] }

/-- C8, counterexample: the claim says that after `load()` recovers from a
corrupt backing file, a subsequent `get_all` on ANY table returns absent.
`load` does recover (empty in-memory image, healed file), but `get_all` is
wrapped in the shared `TTLCache`: with a warm cache line for `"t"` the body
never runs and the pre-corruption result is returned — not absent. -/
theorem c8_counterexample :
    (Store.load staleSt).mem = emptyStorage ∧
    (Store.load staleSt).file = .jdata emptyImageJ ∧
    (Store.get_all (some "t") true (Store.load staleSt)).1 =
      some [⟨"k", sampleEntry⟩] :=
  ⟨rfl, rfl, rfl⟩

/-- C8, amended: for every backing file that is empty or unparsable,
`load()` never propagates the failure: it resets the in-memory Image to the
empty image and immediately persists it; and a subsequent `get_all` on any
table whose result is NOT served from the read cache (a cache miss) returns
absent without raising.  With a warm cache line, `get_all` instead returns
the stale pre-recovery result (`c8_counterexample`). -/
theorem c8_amended (t : String) (kw : Bool) (s : St)
    (hfile : s.file = .empty ∨ s.file = .corrupt)
    (hmiss : cGet s.cacheA (some t, kw) = none) :
    (Store.load s).mem = emptyStorage ∧
    (Store.load s).file = .jdata emptyImageJ ∧
    (Store.get_all (some t) kw (Store.load s)).1 = none := by
  have hload : Store.load s =
      { s with
        mem := emptyStorage, file := .jdata emptyImageJ, dirty := false } :=
    by rcases hfile with h | h <;> simp [Store.load, h]
  rw [hload]
  refine ⟨rfl, rfl, ?_⟩
  set s1 : St :=
    { s with
      mem := emptyStorage, file := .jdata emptyImageJ, dirty := false }
    with hs1
  have hf1 : s1.file = .jdata emptyImageJ := rfl
  have hm1 : cGet s1.cacheA (some t, kw) = none := hmiss
  unfold Store.get_all Store.wrapPurge Store.kwArg
  cases kw with
  | false => simpa using get_allBody_healed t false s1 hf1 hm1
  | true =>
      by_cases ht : t = ""
      · simp only [ht, if_pos rfl, if_true]
        exact get_allBody_healed "" true s1 (by exact hf1) (ht ▸ hm1)
      · simp only [if_true, if_neg ht]
        have hfX : (Store.mark_dirty (Store.purge_expired t s1)).file =
            .jdata emptyImageJ := by
          simpa [Store.mark_dirty] using purge_expired_file_healed t s1 hf1
        have hmX : cGet (Store.mark_dirty
            (Store.purge_expired t s1)).cacheA (some t, true) = none := by
          simpa [Store.mark_dirty, purge_expired_cacheA] using hm1
        exact get_allBody_healed t true _ hfX hmX

/-- Witness for `c8_amended`: corruption recovery with a cold cache, after
which `get_all("t")` is absent. -/
theorem c8_witness :
    (Store.load { sampleSt with file := .corrupt }).mem = emptyStorage ∧
    (Store.load { sampleSt with file := .corrupt }).file =
      .jdata emptyImageJ ∧
    (Store.get_all (some "t") true
        (Store.load { sampleSt with file := .corrupt })).1 = none :=
  c8_amended "t" true { sampleSt with file := .corrupt } (Or.inr rfl) rfl

/-- An image holding a Python-set payload, exactly the shape
`app/api/auth.py` stores into the `"ban-token"` table. -/
def banImg : Storage :=
  ⟨[("ban-token", ⟨"ban-token",
      [("u", ⟨"u", Val.vset [Val.vstr "tok"], 1000, 5, 5, 7⟩)]⟩)]⟩

/-- A state whose in-memory Image is `banImg`. -/
def banSt : St := { sampleSt with mem := banImg }

/-- C9, counterexample: the claim says every Store Image round-trips
through `flush`/`load`.  An Image holding a Python `set` payload — the
repository's own ban-token usage — cannot be serialized at all:
`date_encoder` returns the set unchanged and `orjson.dumps` raises
`TypeError`, so `flush` fails and no round-tripped Image exists (the
backing file is left untouched). -/
theorem c9_counterexample :
    encodeStorage banImg = none ∧
    (Store.flush banSt).1 = .error .typeError ∧
    (Store.flush banSt).2 = banSt :=
  ⟨rfl, rfl, rfl⟩

/-- C9, amended: for every Store Image all of whose payloads are JSON-pure
(null, booleans, integers, strings, lists, string-keyed mappings), `flush`
succeeds and a subsequent `load` reproduces the identical Image — table
names, keys, payloads, identifiers and timestamps included, the timestamps
travelling as ISO-8601 strings and the identifiers as canonical strings.
Images holding non-JSON payloads such as Python sets instead fail to
serialize with `TypeError` (`c9_counterexample`). -/
theorem c9_roundtrip_amended (s : St) (hp : jsonPureStorage s.mem = true) :
    (Store.flush s).1 = .ok () ∧
    (Store.flush s).2.mem = s.mem ∧
    (Store.load (Store.flush s).2).mem = s.mem := by
  rcases Option.isSome_iff_exists.mp (encodeStorage_pure_isSome s.mem hp)
    with ⟨j, hj⟩
  have hdec := decode_encodeStorage s.mem hp j hj
  have hflush : Store.flush s =
      (.ok (), { s with file := .jdata j, dirty := false }) := by
    simp [Store.flush, hj]
  rw [hflush]
  refine ⟨rfl, rfl, ?_⟩
  simp [Store.load, hdec]

/-- Witness for `c9_roundtrip_amended`: the one-entry image of `sampleSt`
(a string payload) flushes and loads back identically. -/
theorem c9_witness :
    (Store.flush sampleSt).1 = .ok () ∧
    (Store.flush sampleSt).2.mem = sampleSt.mem ∧
    (Store.load (Store.flush sampleSt).2).mem = sampleSt.mem :=
  c9_roundtrip_amended sampleSt (by decide)

/-- `load` either only replaces the in-memory Image (successful parse) or
performs the full recovery reset. -/
theorem load_total (x : St) :
    (∃ img, Store.load x = { x with mem := img }) ∨
    Store.load x =
      { x with
        mem := emptyStorage, file := .jdata emptyImageJ, dirty := false } := by
  unfold Store.load
  cases hx : x.file with
  | empty => right; rfl
  | corrupt => right; rfl
  | jdata j =>
      rcases h : decodeStorage j with _ | img
      · right; simp [h]
      · left
        refine ⟨img, ?_⟩
        simp [h]

theorem load_flushEvent (s : St) :
    (Store.load s).flushEvent = s.flushEvent := by
  unfold Store.load
  cases s.file with
  | empty => rfl
  | corrupt => rfl
  | jdata j => rcases h : decodeStorage j with _ | img <;> simp [h]

theorem create_table_dirty (t : String) (x : St) (hd : x.dirty = true) :
    ((Store.create_table t x).2).dirty = true := by
  unfold Store.create_table
  rcases load_total x with ⟨img, hL⟩ | hL <;> rw [hL] <;> dsimp only
  · split
    · exact hd
    · rfl
  · split
    · rename_i h
      simp [Store.tableMem, emptyStorage, alGet] at h
    · rfl

theorem ensureTable_dirty (t : String) (x : St) (hd : x.dirty = true) :
    (Store.ensureTable t x).dirty = true := by
  unfold Store.ensureTable
  split
  · exact hd
  · exact create_table_dirty t x hd

theorem getBody_dirty (key tb : String) (kw : Bool) (x : St)
    (hd : x.dirty = true) :
    ((Store.getBody key tb kw x).2).dirty = true := by
  unfold Store.getBody
  rcases hc : cGet x.cacheG (key, tb, kw) with _ | r
  · simp only [hc]
    rcases load_total x with ⟨img, hL⟩ | hL <;> rw [hL]
    · exact ensureTable_dirty tb _ hd
    · simp [Store.ensureTable, Store.tableMem, emptyStorage, alGet,
        Store.create_table, Store.load, decodeStorage_empty,
        Store.mark_dirty, Store.setTable]
  · simp only [hc]
    exact hd

theorem create_table_flushEvent (t : String) (x : St)
    (hf : x.flushEvent = true) :
    ((Store.create_table t x).2).flushEvent = true := by
  unfold Store.create_table
  have hLf : (Store.load x).flushEvent = true := by
    rw [load_flushEvent]; exact hf
  dsimp only
  split
  · exact hLf
  · rfl

theorem ensureTable_flushEvent (t : String) (x : St)
    (hf : x.flushEvent = true) :
    (Store.ensureTable t x).flushEvent = true := by
  unfold Store.ensureTable
  split
  · exact hf
  · exact create_table_flushEvent t x hf

theorem getBody_flushEvent (key tb : String) (kw : Bool) (x : St)
    (hf : x.flushEvent = true) :
    ((Store.getBody key tb kw x).2).flushEvent = true := by
  unfold Store.getBody
  rcases hc : cGet x.cacheG (key, tb, kw) with _ | r
  · simp only [hc]
    exact ensureTable_flushEvent tb _ (by rw [load_flushEvent]; exact hf)
  · simp only [hc]
    exact hf

/-- C10: the `PurgeMeta` wrapper fires exactly on a truthy keyword
`table_name`: with `table_name` as a non-empty keyword the wrapped body runs
on `mark_dirty (purge_expired t s)`; a positional call (no `table_name` in
`kwargs`) runs the body on the untouched state, bypassing purge and
dirty-marking alike.  When it fires it marks the Image dirty and wakes the
background flusher, and a keyword-invoked read-only `get` therefore always
ends with the dirty flag and the flusher wake event set — a rewrite of the
backing file is scheduled by a mere read. -/
theorem c10_wrapper_semantics (t : String) (ht : t ≠ "") :
    (∀ (ρ : Type) (body : St → ρ × St) (s : St),
        Store.wrapPurge (some t) body s =
          body (Store.mark_dirty (Store.purge_expired t s))) ∧
    (∀ (ρ : Type) (body : St → ρ × St) (s : St),
        Store.wrapPurge none body s = body s) ∧
    (∀ s : St, (Store.mark_dirty s).dirty = true ∧
        (Store.mark_dirty s).flushEvent = true) ∧
    (∀ (key : String) (s : St),
        ((Store.get key t true s).2).dirty = true ∧
        ((Store.get key t true s).2).flushEvent = true) := by
  refine ⟨?_, fun ρ body s => rfl, fun s => ⟨rfl, rfl⟩, ?_⟩
  · intro ρ body s
    show (if t = "" then body s
      else body (Store.mark_dirty (Store.purge_expired t s))) = _
    rw [if_neg ht]
  · intro key s
    have hw : Store.get key t true s =
        Store.getBody key t true
          (Store.mark_dirty (Store.purge_expired t s)) := by
      unfold Store.get Store.wrapPurge Store.kwArg
      simp [ht]
    rw [hw]
    exact ⟨getBody_dirty key t true _ rfl, getBody_flushEvent key t true _ rfl⟩

/-- Witness for `c10_wrapper_semantics`: a keyword `get` on the fresh store
leaves the dirty flag and the flusher wake event set. -/
theorem c10_witness :
    ((Store.get "k" "t" true initSt).2).dirty = true ∧
    ((Store.get "k" "t" true initSt).2).flushEvent = true :=
  (c10_wrapper_semantics "t" (by decide)).2.2.2 "k" initSt
